import Mathlib

/-!
Verification of the message-envelope decoding and validation layer of
graphql-ws-aiohttp (file graphql_ws/protocol.py).

The embedding models JSON-decoded Python values with the inductive type
JSON (the constructor null doubles as the Python value None, which is what
json.loads produces for a JSON null and what dict.get returns for a missing
key).  Python dicts are association lists with distinct keys kept in
insertion order; Python value equality (the == operator), which compares
dicts by key/value content independently of insertion order and identifies
booleans with the integers 0 and 1, is the function pyEq.  Python
exceptions are modelled with Except over the error type Err, whose
constructors name the failure kinds of the protocol layer.

The GraphQL query parser (the third-party graphql-core library) is an
external collaborator: every definition that needs it takes a parameter
P : String -> Option DocumentNode, where DocumentNode keeps exactly the
structure the protocol layer inspects (the list of top-level definitions
and, for operation definitions, their declared operation type).
-/

set_option autoImplicit false

namespace GraphQLWS

/-- JSON-decoded Python values.  Numbers are modelled as integers; JSON
float literals are outside the model. -/
inductive JSON where
  | null
  | bool (b : Bool)
  | num (n : Int)
  | str (s : String)
  | arr (elems : List JSON)
  | obj (members : List (String × JSON))
  deriving Repr

/-- Python dict lookup on an association list: the value of the first
binding of the key, if any.  On lists with distinct keys this is dict
indexing. -/
def lookupStr (m : List (String × JSON)) (k : String) : Option JSON :=
  match m with
  | [] => none
  | (k', v) :: rest => if k' = k then some v else lookupStr rest k

/-- Python dict insertion: assigning to an existing key updates the value
in place (keeping the key's position), assigning a fresh key appends it. -/
def dictInsert (m : List (String × JSON)) (k : String) (v : JSON) :
    List (String × JSON) :=
  match m with
  | [] => [(k, v)]
  | (k', v') :: rest =>
      if k' = k then (k, v) :: rest else (k', v') :: dictInsert rest k v

mutual

/-- Python value equality (the == operator) on JSON-decoded values:
structural on scalars except that booleans compare equal to the integers
0 and 1, element-wise on lists, and key/value based (insertion-order
independent) on dicts, following CPython dict_equal: equal sizes and
every binding of the first dict matched by value in the second. -/
def pyEq : JSON → JSON → Bool
  | .null, .null => true
  | .bool a, .bool b => a == b
  | .bool a, .num n => (if a then (1 : Int) else 0) == n
  | .num n, .bool b => n == (if b then (1 : Int) else 0)
  | .num a, .num b => a == b
  | .str a, .str b => a == b
  | .arr a, .arr b => pyEqList a b
  | .obj a, .obj b => (a.length == b.length) && pyEqSub a b
  | _, _ => false

/-- Element-wise Python equality of two lists. -/
def pyEqList : List JSON → List JSON → Bool
  | [], [] => true
  | x :: xs, y :: ys => pyEq x y && pyEqList xs ys
  | _, _ => false

/-- Every binding of the first dict is matched, by Python equality of
values, by a binding of the same key in the second dict. -/
def pyEqSub : List (String × JSON) → List (String × JSON) → Bool
  | [], _ => true
  | (k, v) :: rest, b =>
      (match lookupStr b k with
       | some w => pyEq v w
       | none => false) && pyEqSub rest b

end

/-- Python dict equality (CPython dict_equal): equal sizes, and every
binding of the first dict matched by Python value equality under the same
key in the second. -/
def pyDictEq (a b : List (String × JSON)) : Bool :=
  (a.length == b.length) && pyEqSub a b

/-! ### A model of json.loads

Python's json module is an external collaborator; the parser below models
its strict mode on the JSON grammar restricted to integer number literals
(float literals, NaN and Infinity are outside the model).  It is a fueled
recursive-descent parser over the character list of the input; the fuel
passed by jsonLoads is far larger than any possible recursion depth, so it
never runs out on an input the grammar accepts. -/

/-- The opening-brace character. -/
def lbrace : Char := Char.ofNat 123

/-- The closing-brace character. -/
def rbrace : Char := Char.ofNat 125

/-- Drop leading JSON whitespace (space, tab, newline, carriage return). -/
def skipWs : List Char → List Char
  | [] => []
  | c :: cs =>
      if c = ' ' ∨ c = '\t' ∨ c = '\n' ∨ c = '\r' then skipWs cs else c :: cs

/-- Value of a hexadecimal digit. -/
def hexVal (c : Char) : Option Nat :=
  if '0' ≤ c ∧ c ≤ '9' then some (c.toNat - 48)
  else if 'a' ≤ c ∧ c ≤ 'f' then some (c.toNat - 87)
  else if 'A' ≤ c ∧ c ≤ 'F' then some (c.toNat - 55)
  else none

/-- Parse the body of a JSON string after its opening quote, returning the
decoded string and the input after the closing quote.  Escapes follow the
JSON grammar; unescaped control characters are rejected (strict mode). -/
def parseStringBody : List Char → String → Option (String × List Char)
  | [], _ => none
  | '\\' :: '"' :: cs, acc => parseStringBody cs (acc.push '"')
  | '\\' :: '\\' :: cs, acc => parseStringBody cs (acc.push '\\')
  | '\\' :: '/' :: cs, acc => parseStringBody cs (acc.push '/')
  | '\\' :: 'b' :: cs, acc => parseStringBody cs (acc.push (Char.ofNat 8))
  | '\\' :: 'f' :: cs, acc => parseStringBody cs (acc.push (Char.ofNat 12))
  | '\\' :: 'n' :: cs, acc => parseStringBody cs (acc.push '\n')
  | '\\' :: 'r' :: cs, acc => parseStringBody cs (acc.push '\r')
  | '\\' :: 't' :: cs, acc => parseStringBody cs (acc.push '\t')
  | '\\' :: 'u' :: h1 :: h2 :: h3 :: h4 :: cs, acc =>
      match hexVal h1, hexVal h2, hexVal h3, hexVal h4 with
      | some a, some b, some c, some d =>
          parseStringBody cs
            (acc.push (Char.ofNat (((a * 16 + b) * 16 + c) * 16 + d)))
      | _, _, _, _ => none
  | '\\' :: _, _ => none
  | '"' :: cs, acc => some (acc, cs)
  | c :: cs, acc =>
      if c.toNat < 32 then none else parseStringBody cs (acc.push c)

/-- Decimal digits to a natural number. -/
def digitsToNat (ds : List Char) : Nat :=
  ds.foldl (fun n c => n * 10 + (c.toNat - 48)) 0

/-- Parse a JSON integer literal (optional minus, digits, no redundant
leading zero).  A following fraction or exponent marks a float literal,
which is outside the model. -/
def parseNum (cs : List Char) : Option (JSON × List Char) :=
  let p := match cs with
    | '-' :: rest => (true, rest)
    | _ => (false, cs)
  let ds := p.2.takeWhile Char.isDigit
  let rest := p.2.dropWhile Char.isDigit
  match ds with
  | [] => none
  | '0' :: _ :: _ => none
  | _ =>
    match rest with
    | '.' :: _ => none
    | 'e' :: _ => none
    | 'E' :: _ => none
    | _ =>
      let n : Int := Int.ofNat (digitsToNat ds)
      some (.num (if p.1 then -n else n), rest)

/-- Parse the literals true, false and null. -/
def parseLit : List Char → Option (JSON × List Char)
  | 't' :: 'r' :: 'u' :: 'e' :: rest => some (.bool true, rest)
  | 'f' :: 'a' :: 'l' :: 's' :: 'e' :: rest => some (.bool false, rest)
  | 'n' :: 'u' :: 'l' :: 'l' :: rest => some (.null, rest)
  | _ => none

mutual

/-- Parse one JSON value, skipping leading whitespace. -/
def parseVal : Nat → List Char → Option (JSON × List Char)
  | 0, _ => none
  | fuel + 1, cs =>
    match skipWs cs with
    | [] => none
    | c :: rest =>
      if c = lbrace then
        match skipWs rest with
        | [] => none
        | d :: rest' =>
          if d = rbrace then some (.obj [], rest')
          else
            match parseMembers fuel (d :: rest') [] with
            | some (ms, r) => some (.obj ms, r)
            | none => none
      else if c = '[' then
        match skipWs rest with
        | [] => none
        | d :: rest' =>
          if d = ']' then some (.arr [], rest')
          else
            match parseElems fuel (d :: rest') [] with
            | some (es, r) => some (.arr es, r)
            | none => none
      else if c = '"' then
        match parseStringBody rest "" with
        | some (s, r) => some (.str s, r)
        | none => none
      else if c = 't' ∨ c = 'f' ∨ c = 'n' then parseLit (c :: rest)
      else if c = '-' ∨ c.isDigit then parseNum (c :: rest)
      else none

/-- Parse the non-empty member list of a JSON object, accumulating the
members by Python dict insertion (a repeated key overwrites in place). -/
def parseMembers : Nat → List Char → List (String × JSON) →
    Option (List (String × JSON) × List Char)
  | 0, _, _ => none
  | fuel + 1, cs, acc =>
    match cs with
    | '"' :: rest =>
      match parseStringBody rest "" with
      | some (k, r1) =>
        match skipWs r1 with
        | ':' :: r2 =>
          match parseVal fuel r2 with
          | some (v, r3) =>
            match skipWs r3 with
            | [] => none
            | ',' :: r4 => parseMembers fuel (skipWs r4) (dictInsert acc k v)
            | d :: r4 =>
                if d = rbrace then some (dictInsert acc k v, r4) else none
          | none => none
        | _ => none
      | none => none
    | _ => none

/-- Parse the non-empty element list of a JSON array. -/
def parseElems : Nat → List Char → List JSON →
    Option (List JSON × List Char)
  | 0, _, _ => none
  | fuel + 1, cs, acc =>
    match parseVal fuel cs with
    | some (v, r1) =>
      match skipWs r1 with
      | ',' :: r2 => parseElems fuel (skipWs r2) (acc ++ [v])
      | ']' :: r2 => some (acc ++ [v], r2)
      | _ => none
    | none => none

end

/-- Model of Python json.loads: decode one JSON value, allowing only
trailing whitespace after it; returns none on any syntax error (Python
raises json.JSONDecodeError there). -/
def jsonLoads (s : String) : Option JSON :=
  match parseVal (8 * (s.length + 2)) s.toList with
  | some (v, rest) => if skipWs rest = [] then some v else none
  | none => none

/-- True exactly on object-shaped JSON values (Python dicts). -/
def JSON.isObj : JSON → Bool
  | .obj _ => true
  | _ => false

/-! ### The protocol layer (graphql_ws/protocol.py) -/

/-- Failure kinds of the protocol layer.  The first four are the spec's
taxonomy: malformedJSON is the json.JSONDecodeError from json.loads,
invalidEnvelopeShape the TypeError raised by OperationMessage.load,
invalidMessageKind the ValueError raised by the GQLMsgType enum lookup,
invalidPayloadShape the TypeError raised by the payload constructor.
keyError models dict indexing a missing key; typeErrorNotString and
graphQLSyntaxError are the exceptions of graphql.parse, both swallowed
inside the document accessor. -/
inductive Err where
  | malformedJSON
  | invalidEnvelopeShape
  | invalidMessageKind
  | invalidPayloadShape
  | keyError (k : String)
  | typeErrorNotString
  | graphQLSyntaxError
  deriving DecidableEq, Repr

/-- The closed enumeration of envelope type tags (enum GQLMsgType). -/
inductive GQLMsgType where
  | connection_init
  | connection_ack
  | ping
  | pong
  | subscribe
  | next
  | error
  | complete
  deriving DecidableEq, Repr

/-- The wire value of each tag (the enum member values). -/
def GQLMsgType.value : GQLMsgType → String
  | .connection_init => "connection_init"
  | .connection_ack => "connection_ack"
  | .ping => "ping"
  | .pong => "pong"
  | .subscribe => "subscribe"
  | .next => "next"
  | .error => "error"
  | .complete => "complete"

/-- The eight canonical type strings, in declaration order. -/
def canonicalTypeStrings : List String :=
  ["connection_init", "connection_ack", "ping", "pong",
   "subscribe", "next", "error", "complete"]

/-- Enum lookup by value on strings. -/
def GQLMsgType.ofString? (s : String) : Option GQLMsgType :=
  if s = "connection_init" then some .connection_init
  else if s = "connection_ack" then some .connection_ack
  else if s = "ping" then some .ping
  else if s = "pong" then some .pong
  else if s = "subscribe" then some .subscribe
  else if s = "next" then some .next
  else if s = "error" then some .error
  else if s = "complete" then some .complete
  else none

/-- The call GQLMsgType(value) on a JSON-decoded value (none is the Python
None that dict.get returns for a missing "type" field): succeeds on the
eight canonical strings, raises ValueError (invalidMessageKind) on every
other value, absence included. -/
def GQLMsgType.ofValue (v : Option JSON) : Except Err GQLMsgType :=
  match v with
  | some (.str s) =>
    match GQLMsgType.ofString? s with
    | some t => .ok t
    | none => .error .invalidMessageKind
  | _ => .error .invalidMessageKind

/-! ### The GraphQL document model

The graphql-core parser is an external collaborator.  Its AST is kept
down to exactly what the protocol layer inspects: a document is a list of
top-level definitions, each of which either is an operation definition
carrying its declared operation type or is some other kind of definition
(fragment or type-system definition). -/

/-- The declared kind of an operation definition (graphql.OperationType);
the anonymous query shorthand parses to an operation of type query. -/
inductive OperationType where
  | query
  | mutation
  | subscription
  deriving DecidableEq, Repr

/-- One top-level definition of a parsed document. -/
inductive DefinitionNode where
  | operationDefinition (operation : OperationType)
  | otherDefinition
  deriving DecidableEq, Repr

/-- A parsed document (graphql.DocumentNode restricted to the structure
the protocol layer reads). -/
structure DocumentNode where
  definitions : List DefinitionNode
  deriving DecidableEq, Repr

/-- The test applied to each definition by has_subscription_operation:
isinstance(definition, OperationDefinitionNode) and definition.operation
is OperationType.SUBSCRIPTION. -/
def isSubscriptionDefinition : DefinitionNode → Bool
  | .operationDefinition op => op == .subscription
  | .otherDefinition => false

/-- The call graphql.parse(value) on an arbitrary Python value, given the
external parser P on strings: a non-string argument raises TypeError, a
string that P rejects raises GraphQLSyntaxError. -/
def graphqlParse (P : String → Option DocumentNode) (v : JSON) :
    Except Err DocumentNode :=
  match v with
  | .str s =>
    match P s with
    | some d => .ok d
    | none => .error .graphQLSyntaxError
  | _ => .error .typeErrorNotString

/-! ### OperationMessagePayload -/

/-- The validated payload wrapper (class OperationMessagePayload): its one
slot holds the underlying dict. -/
structure OperationMessagePayload where
  _payload : List (String × JSON)
  deriving Repr

/-- The payload constructor: a dict is kept, absence and null normalize
to the empty dict (payload or then-empty), and any other shape raises
TypeError (invalidPayloadShape). -/
def OperationMessagePayload.init (payload : Option JSON) :
    Except Err OperationMessagePayload :=
  match payload with
  | none => .ok ⟨[]⟩
  | some .null => .ok ⟨[]⟩
  | some (.obj kvs) => .ok ⟨kvs⟩
  | some _ => .error .invalidPayloadShape

/-- Bracket indexing (the dunder getitem): the bound value, or KeyError
for a missing key. -/
def OperationMessagePayload.getitem (p : OperationMessagePayload)
    (key : String) : Except Err JSON :=
  match lookupStr p._payload key with
  | some v => .ok v
  | none => .error (.keyError key)

/-- Mapping.get with the default None: the bound value, or null (the
model of Python None) for a missing key. -/
def OperationMessagePayload.get (p : OperationMessagePayload)
    (key : String) : JSON :=
  match lookupStr p._payload key with
  | some v => v
  | none => .null

/-- Mapping containment: bracket indexing succeeds. -/
def OperationMessagePayload.contains (p : OperationMessagePayload)
    (key : String) : Bool :=
  match p.getitem key with
  | .ok _ => true
  | .error _ => false

/-- The size of the payload (len of the underlying dict). -/
def OperationMessagePayload.len (p : OperationMessagePayload) : Nat :=
  p._payload.length

/-- Iteration order over the payload: the keys of the underlying dict in
insertion order. -/
def OperationMessagePayload.keys (p : OperationMessagePayload) :
    List String :=
  p._payload.map Prod.fst

/-- The query accessor: self.get of the string query. -/
def OperationMessagePayload.query (p : OperationMessagePayload) : JSON :=
  p.get "query"

/-- The variable_values accessor: self.get of the string variables. -/
def OperationMessagePayload.variable_values
    (p : OperationMessagePayload) : JSON :=
  p.get "variables"

/-- The operation_name accessor: self.get of the string operationName. -/
def OperationMessagePayload.operation_name
    (p : OperationMessagePayload) : JSON :=
  p.get "operationName"

/-- The document accessor: graphql.parse(self.query) with every exception
swallowed to None. -/
def OperationMessagePayload.document (P : String → Option DocumentNode)
    (p : OperationMessagePayload) : Option DocumentNode :=
  match graphqlParse P p.query with
  | .ok d => some d
  | .error _ => none

/-- Modelled from the spec: graphql.Source is part of the external
graphql-core library, described as a labeled wrapper around the possibly
absent query value that performs no parsing and never fails; its default
label is the string GraphQL request. -/
structure Source where
  body : JSON
  name : String
  deriving Repr

/-- The source accessor: graphql.Source(self.query). -/
def OperationMessagePayload.source (p : OperationMessagePayload) :
    Source :=
  ⟨p.query, "GraphQL request"⟩

/-- The has_subscription_operation accessor: any definition of the parsed
document passes the subscription test; False when the document is None. -/
def OperationMessagePayload.has_subscription_operation
    (P : String → Option DocumentNode) (p : OperationMessagePayload) :
    Bool :=
  match OperationMessagePayload.document P p with
  | some document => document.definitions.any isSubscriptionDefinition
  | none => false

/-- Payload equality, inherited from collections.abc.Mapping: dict(self)
compared to dict(other) with Python dict equality. -/
def OperationMessagePayload.eq (a b : OperationMessagePayload) : Bool :=
  pyDictEq a._payload b._payload

/-! ### OperationMessage -/

/-- The envelope (class OperationMessage): slots for the tag, the
correlation id (a Python value, null modelling the None default) and the
payload. -/
structure OperationMessage where
  _type : GQLMsgType
  _id : JSON
  _payload : OperationMessagePayload
  deriving Repr

/-- The type property. -/
def OperationMessage.type (m : OperationMessage) : GQLMsgType :=
  m._type

/-- The id property. -/
def OperationMessage.id (m : OperationMessage) : JSON :=
  m._id

/-- The payload property. -/
def OperationMessage.payload (m : OperationMessage) :
    OperationMessagePayload :=
  m._payload

/-- The envelope constructor: GQLMsgType(type) first, then the payload
wrapper, each propagating its failure; the id is stored verbatim. -/
def OperationMessage.init (type id payload : Option JSON) :
    Except Err OperationMessage := do
  let t ← GQLMsgType.ofValue type
  let p ← OperationMessagePayload.init payload
  return ⟨t, id.getD .null, p⟩

/-- Structural equality of envelopes: type, id and payload must all
match (the conjunction evaluated by the dunder eq). -/
def OperationMessage.eq (a b : OperationMessage) : Bool :=
  a.type == b.type && pyEq a.id b.id
    && OperationMessagePayload.eq a.payload b.payload

/-- The classmethod load: a non-dict raises TypeError
(invalidEnvelopeShape); otherwise the envelope is built from the fields
type, id and payload, each read with dict.get. -/
def OperationMessage.load (data : JSON) : Except Err OperationMessage :=
  match data with
  | .obj kvs =>
      OperationMessage.init (lookupStr kvs "type") (lookupStr kvs "id")
        (lookupStr kvs "payload")
  | _ => .error .invalidEnvelopeShape

/-- The classmethod loads: json.loads then load. -/
def OperationMessage.loads (data : String) : Except Err OperationMessage :=
  match jsonLoads data with
  | some v => OperationMessage.load v
  | none => .error .malformedJSON

/-- Pointwise Python equality of two optional values, both-absent counting
as equal; used to state order-independent dict equality per key. -/
def optValEq : Option JSON → Option JSON → Bool
  | some v, some w => pyEq v w
  | none, none => true
  | _, _ => false

/-! ### Lemmas about dict lookup and Python dict equality -/

theorem lookupStr_eq_some_imp_mem {m : List (String × JSON)} {k : String}
    {v : JSON} (h : lookupStr m k = some v) : (k, v) ∈ m := by
  induction m with
  | nil => simp [lookupStr] at h
  | cons hd tl ih =>
    obtain ⟨k', v'⟩ := hd
    by_cases hk : k' = k
    · subst hk
      simp [lookupStr] at h
      subst h
      exact List.mem_cons_self _ _
    · simp [lookupStr, hk] at h
      exact List.mem_cons_of_mem _ (ih h)

theorem mem_keys_iff_lookup_isSome {m : List (String × JSON)}
    {k : String} :
    k ∈ m.map Prod.fst ↔ ∃ v, lookupStr m k = some v := by
  induction m with
  | nil => simp [lookupStr]
  | cons hd tl ih =>
    obtain ⟨k', v'⟩ := hd
    by_cases hk : k' = k
    · subst hk
      simp [lookupStr]
    · simp [lookupStr, hk, ih, eq_comm, Ne.symm hk]

theorem lookupStr_eq_some_of_mem {m : List (String × JSON)} {k : String}
    {v : JSON} (hnd : (m.map Prod.fst).Nodup) (h : (k, v) ∈ m) :
    lookupStr m k = some v := by
  induction m with
  | nil => simp at h
  | cons hd tl ih =>
    obtain ⟨k', v'⟩ := hd
    simp only [List.map_cons, List.nodup_cons] at hnd
    rcases List.mem_cons.mp h with h1 | h1
    · injection h1 with hk hv
      subst hk
      subst hv
      simp [lookupStr]
    · have hk : k' ≠ k := by
        intro he
        subst he
        exact hnd.1 (List.mem_map.mpr ⟨(k', v), h1, rfl⟩)
      simp [lookupStr, hk]
      exact ih hnd.2 h1

theorem pyEqSub_eq_true_iff {a b : List (String × JSON)} :
    pyEqSub a b = true ↔
      ∀ kv ∈ a, ∃ w, lookupStr b kv.1 = some w ∧ pyEq kv.2 w = true := by
  induction a with
  | nil => simp [pyEqSub]
  | cons hd tl ih =>
    obtain ⟨k, v⟩ := hd
    cases hw : lookupStr b k with
    | none => simp [pyEqSub, hw]
    | some w => simp [pyEqSub, hw, ih]

theorem isSubscriptionDefinition_eq_true {d : DefinitionNode} :
    isSubscriptionDefinition d = true ↔
      d = .operationDefinition .subscription := by
  cases d with
  | operationDefinition op => cases op <;> simp [isSubscriptionDefinition]
  | otherDefinition => simp [isSubscriptionDefinition]

/-! ### The claims -/

/-- C2: OperationMessage.loads fails with malformedJSON exactly on text
that json.loads rejects; a decoded non-object fails with
invalidEnvelopeShape; otherwise loads delegates to load on the decoded
value. -/
theorem C2_loads_error_dispatch (s : String) :
    (jsonLoads s = none →
      OperationMessage.loads s = .error .malformedJSON) ∧
    (∀ v, jsonLoads s = some v →
      OperationMessage.loads s = OperationMessage.load v) ∧
    (∀ v, jsonLoads s = some v → v.isObj = false →
      OperationMessage.loads s = .error .invalidEnvelopeShape) := by
  refine ⟨?_, ?_, ?_⟩
  · intro h
    simp [OperationMessage.loads, h]
  · intro v h
    simp [OperationMessage.loads, h]
  · intro v h hobj
    simp only [OperationMessage.loads, h]
    cases v <;> simp_all [JSON.isObj, OperationMessage.load]

/-- C2 witness: loads on text that is not JSON reports malformedJSON, and
on a JSON array reports invalidEnvelopeShape. -/
theorem C2_loads_error_dispatch_witness :
    OperationMessage.loads "not json" = .error .malformedJSON ∧
    OperationMessage.loads "[1,2]" = .error .invalidEnvelopeShape :=
  ⟨(C2_loads_error_dispatch "not json").1 rfl,
   (C2_loads_error_dispatch "[1,2]").2.2 (.arr [.num 1, .num 2]) rfl rfl⟩

/-- C3: each of the eight canonical type strings constructs a MessageKind
that round-trips to the same string; every other string, and an absent
type field, fails with invalidMessageKind. -/
theorem C3_message_kind_construction :
    (∀ s ∈ canonicalTypeStrings,
      ∃ t, GQLMsgType.ofValue (some (.str s)) = .ok t ∧ t.value = s) ∧
    (∀ s : String, s ∉ canonicalTypeStrings →
      GQLMsgType.ofValue (some (.str s)) = .error .invalidMessageKind) ∧
    GQLMsgType.ofValue none = .error .invalidMessageKind := by
  refine ⟨?_, ?_, rfl⟩
  · intro s hs
    fin_cases hs <;> exact ⟨_, rfl, rfl⟩
  · intro s hs
    simp only [canonicalTypeStrings, List.mem_cons, List.not_mem_nil,
      or_false, not_or] at hs
    obtain ⟨h1, h2, h3, h4, h5, h6, h7, h8⟩ := hs
    simp [GQLMsgType.ofValue, GQLMsgType.ofString?,
      h1, h2, h3, h4, h5, h6, h7, h8]

/-- C3 witness: the string ping round-trips; the string nope is rejected
with invalidMessageKind. -/
theorem C3_message_kind_construction_witness :
    (∃ t, GQLMsgType.ofValue (some (.str "ping")) = .ok t ∧
      t.value = "ping") ∧
    GQLMsgType.ofValue (some (.str "nope")) =
      .error .invalidMessageKind :=
  ⟨C3_message_kind_construction.1 "ping" (by decide),
   C3_message_kind_construction.2.1 "nope" (by decide)⟩

/-- C4: payload construction succeeds exactly on an object-shaped value,
null or absence; null and absence normalize to the empty mapping, so
Payload(null) and Payload(empty) are equal and of size 0; every other
shape fails with invalidPayloadShape. -/
theorem C4_payload_construction :
    (∀ v : Option JSON,
      (∃ p, OperationMessagePayload.init v = .ok p) ↔
        v = none ∨ v = some .null ∨ ∃ kvs, v = some (.obj kvs)) ∧
    OperationMessagePayload.init none = .ok ⟨[]⟩ ∧
    OperationMessagePayload.init (some .null) = .ok ⟨[]⟩ ∧
    OperationMessagePayload.init (some (.obj [])) = .ok ⟨[]⟩ ∧
    (∀ b, OperationMessagePayload.init (some (.bool b)) =
      .error .invalidPayloadShape) ∧
    (∀ n, OperationMessagePayload.init (some (.num n)) =
      .error .invalidPayloadShape) ∧
    (∀ s, OperationMessagePayload.init (some (.str s)) =
      .error .invalidPayloadShape) ∧
    (∀ xs, OperationMessagePayload.init (some (.arr xs)) =
      .error .invalidPayloadShape) ∧
    OperationMessagePayload.eq ⟨[]⟩ ⟨[]⟩ = true ∧
    OperationMessagePayload.len ⟨[]⟩ = 0 := by
  refine ⟨?_, rfl, rfl, rfl, fun b => rfl, fun n => rfl, fun s => rfl,
    fun xs => rfl, rfl, rfl⟩
  intro v
  rcases v with _ | v
  · simp [OperationMessagePayload.init]
  · cases v <;> simp [OperationMessagePayload.init]

/-- C6: on a string that JSON-decodes to an object-shaped value, the text
entrypoint loads agrees with the object entrypoint load. -/
theorem C6_loads_agrees_with_load (s : String) (o : JSON)
    (h : jsonLoads s = some o) (_ho : o.isObj = true) :
    OperationMessage.loads s = OperationMessage.load o := by
  simp [OperationMessage.loads, h]

/-- C6 witness: the subscribe example of the spec decodes to the expected
object and both entrypoints agree on it. -/
theorem C6_loads_agrees_with_load_witness :
    OperationMessage.loads
      "\x7b\"type\":\"subscribe\",\"id\":\"1\",\"payload\":\x7b\"query\":\"\x7ba\x7d\"\x7d\x7d" =
    OperationMessage.load
      (JSON.obj [("type", JSON.str "subscribe"), ("id", JSON.str "1"),
        ("payload", JSON.obj [("query", JSON.str "\x7ba\x7d")])]) :=
  C6_loads_agrees_with_load _ _ rfl rfl

/-- C8: a payload built from a mapping reads as that mapping: get returns
the bound value for a present key and null (absence) for a missing key,
its size is the size of the mapping, containment holds exactly on the
mapping's keys, and iteration yields the keys in insertion order. -/
theorem C8_read_access (m : List (String × JSON)) :
    (∀ k v, lookupStr m k = some v →
      OperationMessagePayload.get ⟨m⟩ k = v) ∧
    (∀ k, lookupStr m k = none →
      OperationMessagePayload.get ⟨m⟩ k = .null) ∧
    OperationMessagePayload.len ⟨m⟩ = m.length ∧
    (∀ k, OperationMessagePayload.contains ⟨m⟩ k = true ↔
      k ∈ m.map Prod.fst) ∧
    OperationMessagePayload.keys ⟨m⟩ = m.map Prod.fst := by
  refine ⟨?_, ?_, rfl, ?_, rfl⟩
  · intro k v h
    simp [OperationMessagePayload.get, h]
  · intro k h
    simp [OperationMessagePayload.get, h]
  · intro k
    rw [mem_keys_iff_lookup_isSome]
    cases h : lookupStr m k <;>
      simp [OperationMessagePayload.contains, OperationMessagePayload.getitem, h]

/-- C8 witness: in the payload binding a to 1, get of a is 1 and get of a
missing key is absence. -/
theorem C8_read_access_witness :
    OperationMessagePayload.get ⟨[("a", JSON.num 1)]⟩ "a" = JSON.num 1 ∧
    OperationMessagePayload.get ⟨[("a", JSON.num 1)]⟩ "missing" =
      JSON.null :=
  ⟨(C8_read_access [("a", JSON.num 1)]).1 "a" (JSON.num 1) rfl,
   (C8_read_access [("a", JSON.num 1)]).2.1 "missing" rfl⟩

/-- C9: the source accessor always succeeds, wrapping the possibly absent
query value under the GraphQL request label, with no parsing involved;
in particular a payload without a query key yields a null body. -/
theorem C9_source_wraps_query (p : OperationMessagePayload) :
    (OperationMessagePayload.source p).body =
      OperationMessagePayload.query p ∧
    (OperationMessagePayload.source p).name = "GraphQL request" ∧
    (OperationMessagePayload.contains p "query" = false →
      (OperationMessagePayload.source p).body = JSON.null) := by
  refine ⟨rfl, rfl, ?_⟩
  intro h
  cases hl : lookupStr p._payload "query" with
  | some v =>
      simp [OperationMessagePayload.contains, OperationMessagePayload.getitem,
        hl] at h
  | none =>
      simp [OperationMessagePayload.source, OperationMessagePayload.query,
        OperationMessagePayload.get, hl]

/-- C9 witness: the empty payload has no query key and its source has a
null body. -/
theorem C9_source_wraps_query_witness :
    OperationMessagePayload.contains ⟨[]⟩ "query" = false ∧
    (OperationMessagePayload.source ⟨[]⟩).body = JSON.null :=
  ⟨rfl, (C9_source_wraps_query ⟨[]⟩).2.2 rfl⟩

/-- C10: bracket indexing a payload at a missing key raises KeyError,
while the get accessor returns absence there. -/
theorem C10_getitem_missing_raises (p : OperationMessagePayload)
    (k : String) (h : lookupStr p._payload k = none) :
    OperationMessagePayload.getitem p k = .error (.keyError k) ∧
    OperationMessagePayload.get p k = .null := by
  constructor
  · simp [OperationMessagePayload.getitem, h]
  · simp [OperationMessagePayload.get, h]

/-- C10 witness: indexing the payload binding only a at the key b raises
KeyError of b. -/
theorem C10_getitem_missing_raises_witness :
    OperationMessagePayload.getitem ⟨[("a", JSON.num 1)]⟩ "b" =
      .error (.keyError "b") :=
  (C10_getitem_missing_raises ⟨[("a", JSON.num 1)]⟩ "b" rfl).1

/-- C1: has_subscription_operation is true exactly when the document
parses and some top-level definition is an operation definition
explicitly typed as a subscription; in every other situation, the absent
document included, it is false. -/
theorem C1_has_subscription_operation_iff
    (P : String → Option DocumentNode) (p : OperationMessagePayload) :
    OperationMessagePayload.has_subscription_operation P p = true ↔
      ∃ d, OperationMessagePayload.document P p = some d ∧
        DefinitionNode.operationDefinition OperationType.subscription ∈
          d.definitions := by
  unfold OperationMessagePayload.has_subscription_operation
  cases h : OperationMessagePayload.document P p with
  | none => simp
  | some d =>
    simp only [Option.some.injEq, List.any_eq_true]
    constructor
    · rintro ⟨x, hx, hsub⟩
      exact ⟨d, rfl, isSubscriptionDefinition_eq_true.mp hsub ▸ hx⟩
    · rintro ⟨d', hd', hmem⟩
      subst hd'
      exact ⟨_, hmem, isSubscriptionDefinition_eq_true.mpr rfl⟩

/-- C5: the document accessor never propagates an error: it returns the
parsed tree exactly when the bound query value is a string the grammar
accepts, and absence whenever the query is missing, not a string, or
syntactically invalid. -/
theorem C5_document_characterization
    (P : String → Option DocumentNode) (p : OperationMessagePayload) :
    (∀ d, OperationMessagePayload.document P p = some d ↔
      ∃ s, OperationMessagePayload.query p = .str s ∧ P s = some d) ∧
    (OperationMessagePayload.document P p = none ↔
      (∀ s, OperationMessagePayload.query p ≠ .str s) ∨
      ∃ s, OperationMessagePayload.query p = .str s ∧ P s = none) := by
  cases hq : OperationMessagePayload.query p with
  | str s =>
    cases hps : P s with
    | none =>
      constructor
      · intro d
        simp [OperationMessagePayload.document, graphqlParse, hq, hps]
      · simp [OperationMessagePayload.document, graphqlParse, hq, hps]
    | some d0 =>
      constructor
      · intro d
        simp [OperationMessagePayload.document, graphqlParse, hq, hps,
          eq_comm]
      · simp [OperationMessagePayload.document, graphqlParse, hq, hps]
  | null =>
    refine ⟨fun d => ?_, ?_⟩ <;>
      simp [OperationMessagePayload.document, graphqlParse, hq]
  | bool b =>
    refine ⟨fun d => ?_, ?_⟩ <;>
      simp [OperationMessagePayload.document, graphqlParse, hq]
  | num n =>
    refine ⟨fun d => ?_, ?_⟩ <;>
      simp [OperationMessagePayload.document, graphqlParse, hq]
  | arr xs =>
    refine ⟨fun d => ?_, ?_⟩ <;>
      simp [OperationMessagePayload.document, graphqlParse, hq]
  | obj kvs =>
    refine ⟨fun d => ?_, ?_⟩ <;>
      simp [OperationMessagePayload.document, graphqlParse, hq]

theorem pyDictEq_eq_true_iff {a b : List (String × JSON)}
    (hnda : (a.map Prod.fst).Nodup) (hndb : (b.map Prod.fst).Nodup) :
    pyDictEq a b = true ↔
      ∀ k ∈ a.map Prod.fst ++ b.map Prod.fst,
        optValEq (lookupStr a k) (lookupStr b k) = true := by
  constructor
  · intro h k hk
    simp only [pyDictEq, Bool.and_eq_true] at h
    obtain ⟨hlen, hsub⟩ := h
    replace hlen : a.length = b.length := by simpa using hlen
    have Hab := pyEqSub_eq_true_iff.mp hsub
    have hAB : ∀ x ∈ a.map Prod.fst, x ∈ b.map Prod.fst := by
      intro x hx
      obtain ⟨v, hv⟩ := mem_keys_iff_lookup_isSome.mp hx
      obtain ⟨w, hw, _⟩ := Hab (x, v) (lookupStr_eq_some_imp_mem hv)
      exact mem_keys_iff_lookup_isSome.mpr ⟨w, hw⟩
    have hkeys : ∀ x, x ∈ b.map Prod.fst → x ∈ a.map Prod.fst := by
      intro x hx
      have hsubF : (a.map Prod.fst).toFinset ⊆ (b.map Prod.fst).toFinset := by
        intro y hy
        exact List.mem_toFinset.mpr (hAB y (List.mem_toFinset.mp hy))
      have hcard : (b.map Prod.fst).toFinset.card ≤
          (a.map Prod.fst).toFinset.card := by
        rw [List.toFinset_card_of_nodup hnda, List.toFinset_card_of_nodup hndb]
        simp [hlen]
      have heq := Finset.eq_of_subset_of_card_le hsubF hcard
      exact List.mem_toFinset.mp (heq ▸ List.mem_toFinset.mpr hx)
    have hka : k ∈ a.map Prod.fst := by
      rcases List.mem_append.mp hk with h1 | h1
      · exact h1
      · exact hkeys k h1
    obtain ⟨v, hv⟩ := mem_keys_iff_lookup_isSome.mp hka
    obtain ⟨w, hw, hvw⟩ := Hab (k, v) (lookupStr_eq_some_imp_mem hv)
    rw [hv, hw]
    simpa [optValEq] using hvw
  · intro h
    have hAB : ∀ x ∈ a.map Prod.fst, x ∈ b.map Prod.fst := by
      intro x hx
      have hx' := h x (List.mem_append.mpr (Or.inl hx))
      obtain ⟨v, hv⟩ := mem_keys_iff_lookup_isSome.mp hx
      rw [hv] at hx'
      cases hw : lookupStr b x with
      | none => rw [hw] at hx'; simp [optValEq] at hx'
      | some w => exact mem_keys_iff_lookup_isSome.mpr ⟨w, hw⟩
    have hBA : ∀ x ∈ b.map Prod.fst, x ∈ a.map Prod.fst := by
      intro x hx
      have hx' := h x (List.mem_append.mpr (Or.inr hx))
      obtain ⟨w, hw⟩ := mem_keys_iff_lookup_isSome.mp hx
      rw [hw] at hx'
      cases hv : lookupStr a x with
      | none => rw [hv] at hx'; simp [optValEq] at hx'
      | some v => exact mem_keys_iff_lookup_isSome.mpr ⟨v, hv⟩
    have hperm : (a.map Prod.fst).Perm (b.map Prod.fst) := by
      rw [List.perm_ext_iff_of_nodup hnda hndb]
      intro x
      exact ⟨hAB x, hBA x⟩
    simp only [pyDictEq, Bool.and_eq_true]
    refine ⟨?_, ?_⟩
    · have hlen : a.length = b.length := by
        simpa using hperm.length_eq
      simp [hlen]
    · refine pyEqSub_eq_true_iff.mpr ?_
      rintro ⟨k, v⟩ hm
      have hk : k ∈ a.map Prod.fst := List.mem_map.mpr ⟨(k, v), hm, rfl⟩
      have hx' := h k (List.mem_append.mpr (Or.inl hk))
      have hv : lookupStr a k = some v := lookupStr_eq_some_of_mem hnda hm
      rw [hv] at hx'
      cases hw : lookupStr b k with
      | none => rw [hw] at hx'; simp [optValEq] at hx'
      | some w =>
        rw [hw] at hx'
        exact ⟨w, rfl, by simpa [optValEq] using hx'⟩

/-- C7: two envelopes are equal exactly when their kinds are equal, their
ids are Python-equal, and their payload mappings agree key by key,
independent of insertion order (payload key lists without duplicates, as
every Python dict has). -/
theorem C7_message_equality_iff (a b : OperationMessage)
    (hnda : ((a.payload)._payload.map Prod.fst).Nodup)
    (hndb : ((b.payload)._payload.map Prod.fst).Nodup) :
    OperationMessage.eq a b = true ↔
      (a.type = b.type ∧ pyEq a.id b.id = true ∧
        ∀ k ∈ (a.payload)._payload.map Prod.fst ++
            (b.payload)._payload.map Prod.fst,
          optValEq (lookupStr (a.payload)._payload k)
            (lookupStr (b.payload)._payload k) = true) := by
  unfold OperationMessage.eq OperationMessagePayload.eq
  rw [Bool.and_eq_true, Bool.and_eq_true,
    pyDictEq_eq_true_iff hnda hndb, and_assoc, beq_iff_eq]

/-- C7 witness: two subscribe envelopes whose payload mappings differ
only in key insertion order are equal. -/
theorem C7_message_equality_iff_witness :
    OperationMessage.eq
      ⟨GQLMsgType.subscribe, JSON.str "1",
        ⟨[("a", JSON.num 1), ("b", JSON.num 2)]⟩⟩
      ⟨GQLMsgType.subscribe, JSON.str "1",
        ⟨[("b", JSON.num 2), ("a", JSON.num 1)]⟩⟩ = true :=
  (C7_message_equality_iff _ _ (by decide) (by decide)).mpr (by decide)

end GraphQLWS
